import Mathlib

/-!
Shallow embedding of the client-side 9P transport multiplexer
(`transport.go` of package p9p).

The transport multiplexes concurrent `send` calls onto one duplex channel.
A single coordinator goroutine (`transport.handle`) owns the tag counter and
the `outstanding` map; a reader goroutine forwards decoded frames to it.
We embed:

* the coordinator loop body as a step function `coordStep` on an explicit
  `CoordState` (tag counter + outstanding table), driven by an event that
  names which `select` branch fired and with what data; channel sends into a
  caller's buffered reply/error slot become explicit `Delivery` outputs;
* iterated execution as `coordRun`, which also records the tag assigned to
  each dispatched request and whether the loop stopped or panicked;
* the two `select` statements of `transport.send` as functions of the branch
  that fired (`send` blocks until exactly one branch is ready; which one is
  a scheduler choice, so it is a parameter here);
* `transport.Close` as `closeStep` on the closed/ctx-done signal state;
* the reader loop's error classification and per-iteration action.

Goroutine-external nondeterminism (which select branch fires, whether a
write or read fails, frame contents) is always an explicit parameter, so
every behaviour of the Go code corresponds to some choice of parameters.
-/

namespace P9p

/-- Type discriminant of a protocol message. `Rerror` is the error-reply
kind tested by `resp.Type == Rerror` in `transport.send`; all other message
types are collapsed into `plain n` since the transport never inspects them.
Modelled from the spec: the message catalog is opaque to this core beyond
the error/success discriminant. -/
inductive FcallType where
  | Rerror : FcallType
  | plain : Nat → FcallType
deriving DecidableEq, Repr

/-- Message payload. `MessageRerror ename` is the designated error payload
(the Go type assertion `resp.Message.(MessageRerror)` succeeds exactly on
this constructor); `body n` stands for every other message payload.
Modelled from the spec: a reply Frame's Message may be a generic success
payload or a designated error payload, distinguishable by a type
discriminant. -/
inductive Message where
  | MessageRerror : String → Message
  | body : Nat → Message
deriving DecidableEq, Repr

/-- Type discriminant carried by a message, used when constructing an
outgoing frame. Modelled from the spec: a Frame carries a Tag and a Message
with an error/success discriminant. -/
def messageType : Message → FcallType
  | .MessageRerror _ => .Rerror
  | .body n => .plain n

/-- Decoded protocol frame: a tag, a type discriminant and a message
payload. An incoming frame is produced by the decoder, so its `typ` and
`message` fields need not be consistent (the code defends against
`Type == Rerror` with a non-`MessageRerror` payload). -/
structure Fcall where
  tag : Nat
  typ : FcallType
  message : Message
deriving DecidableEq, Repr

/-- Construction of an outgoing frame from a tag and a message, as used by
`newFcall(tags, req.message)` in the coordinator. Modelled from the spec:
construct the outgoing frame with the allocated tag. -/
def newFcall (tag : Nat) (msg : Message) : Fcall :=
  { tag := tag, typ := messageType msg, message := msg }

/-- One in-flight request (`fcallRequest`). The Go struct holds the
caller's context, the outgoing message, and two buffered channels
(`response`, `err`, capacity 1 each, made by `newFcallRequest`). The two
channels give the request its identity; we represent that identity by `id`
and model channel sends as `Delivery` outputs tagged with `id`. -/
structure FcallRequest where
  id : Nat
  message : Message
deriving DecidableEq, Repr

/-- Capacity of the `response` channel created by `newFcallRequest`
(`make(chan *Fcall, 1)`). -/
def responseSlotCap : Nat := 1

/-- Capacity of the `err` channel created by `newFcallRequest`
(`make(chan error, 1)`). -/
def errSlotCap : Nat := 1

/-- Size of the tag identifier space: Go's `Tag` is a 16-bit unsigned
integer, so `tags++` wraps modulo 2^16. Modelled from the spec: the tag is
a small unsigned identifier wrapping at the identifier space boundary. -/
def tagSpace : Nat := 2 ^ 16

/-- Outstanding table: association list from tag to pending request,
the Go map `outstanding = map[Tag]*fcallRequest{}`. -/
abbrev OutstandingTable := List (Nat × FcallRequest)

/-- Map lookup, `outstanding[tag]`: first entry with the given key. -/
def mapLookup (k : Nat) : OutstandingTable → Option FcallRequest
  | [] => none
  | (k', v) :: m => if k' = k then some v else mapLookup k m

/-- Map deletion, `delete(outstanding, tag)`: removes every entry with the
given key (at most one when keys are distinct, as a Go map guarantees). -/
def mapErase (k : Nat) : OutstandingTable → OutstandingTable
  | [] => []
  | (k', v) :: m => if k' = k then mapErase k m else (k', v) :: mapErase k m

/-- Map insertion, `outstanding[tag] = req`: replaces any existing entry at
that key, like assignment into a Go map. -/
def mapInsert (k : Nat) (v : FcallRequest) (m : OutstandingTable) : OutstandingTable :=
  (k, v) :: mapErase k m

/-- State owned by the coordinator loop in `transport.handle`: the tag
counter `tags` and the `outstanding` table. -/
structure CoordState where
  tags : Nat
  outstanding : OutstandingTable
deriving DecidableEq, Repr

/-- Coordinator state at the top of `transport.handle`: `tags` zero,
`outstanding` empty. -/
def initCoordState : CoordState :=
  { tags := 0, outstanding := [] }

/-- One firing of the coordinator's `select`: a request arrives on
`t.requests` (together with the outcome `writeErr` of the subsequent
`WriteFcall`, `none` on success), a frame arrives on `responses`, the
transport context ends, or `t.closed` is closed. -/
inductive CoordEvent where
  | request : FcallRequest → Option String → CoordEvent
  | response : Fcall → CoordEvent
  | ctxDone : CoordEvent
  | closed : CoordEvent
deriving DecidableEq, Repr

/-- Visible effect of one coordinator iteration on a caller: a value sent
into the request's `err` slot or its `response` slot. -/
inductive Delivery where
  | err : Nat → String → Delivery
  | response : Nat → Fcall → Delivery
deriving DecidableEq, Repr

/-- Result of one coordinator iteration: continue with a new state and a
list of slot deliveries, stop the loop (`return`), or panic. -/
inductive StepResult where
  | next : CoordState → List Delivery → StepResult
  | stopped : StepResult
  | panicked : String → StepResult
deriving DecidableEq, Repr

/-- One iteration of the `for { select { ... } }` loop of
`transport.handle`:

* `case req := <-t.requests`: `tags++` (wrapping, 16-bit), build the frame
  with `newFcall(tags, req.message)`, insert into `outstanding`, then
  `WriteFcall`; on write error, delete the entry again and send the error
  into `req.err`;
* `case b := <-responses`: look up `b.Tag`; absent means
  `panic("unknown tag received")`; present means delete the entry and send
  the frame into `req.response`;
* `case <-t.ctx.Done()` and `case <-t.closed`: `return`. -/
def coordStep (s : CoordState) : CoordEvent → StepResult
  | .request req writeErr =>
    let tags' := (s.tags + 1) % tagSpace
    let fcall := newFcall tags' req.message
    let inserted := mapInsert fcall.tag req s.outstanding
    match writeErr with
    | some e => .next { tags := tags', outstanding := mapErase fcall.tag inserted }
        [.err req.id e]
    | none => .next { tags := tags', outstanding := inserted } []
  | .response b =>
    match mapLookup b.tag s.outstanding with
    | none => .panicked "unknown tag received"
    | some req => .next { tags := s.tags, outstanding := mapErase b.tag s.outstanding }
        [.response req.id b]
  | .ctxDone => .stopped
  | .closed => .stopped

/-- Reason the coordinator loop ended, when it did. -/
inductive Halt where
  | stopped : Halt
  | panicked : String → Halt
deriving DecidableEq, Repr

/-- Trace of a coordinator run: last reached state, whether and how the
loop halted, all slot deliveries in order, and the tag assigned to each
dispatched request in dispatch order. -/
structure Trace where
  state : CoordState
  halted : Option Halt
  deliveries : List Delivery
  tagsAssigned : List Nat
deriving DecidableEq, Repr

/-- Tag recorded for an event: on a request event the tag assigned to it is
the post-increment counter value of the state after the step; other events
assign no tag. -/
def assignedTagsOf (e : CoordEvent) (s' : CoordState) : List Nat :=
  match e with
  | .request _ _ => [s'.tags]
  | _ => []

/-- Iterated coordinator execution over a list of select firings. Events
after a `return` or a panic are not processed (the loop is gone). -/
def coordRun (s : CoordState) : List CoordEvent → Trace
  | [] => { state := s, halted := none, deliveries := [], tagsAssigned := [] }
  | e :: evs =>
    match coordStep s e with
    | .next s' out =>
      let t := coordRun s' evs
      { state := t.state, halted := t.halted, deliveries := out ++ t.deliveries,
        tagsAssigned := assignedTagsOf e s' ++ t.tagsAssigned }
    | .stopped => { state := s, halted := some .stopped, deliveries := [], tagsAssigned := [] }
    | .panicked msg =>
      { state := s, halted := some (.panicked msg), deliveries := [], tagsAssigned := [] }

/-- Error value returned by `transport.send`. `ErrClosed` is the sentinel
returned when `t.closed` is observed; `ctxErr` stands for `ctx.Err()` of
the caller's context; `writeErr` is an error received from `req.err`
(a `WriteFcall` failure forwarded by the coordinator); `rerror` is the
`MessageRerror` payload returned as a typed protocol error; and
`invalidErrorResponse` is the `fmt.Errorf("invalid error response: %v",
resp)` case for an `Rerror`-typed frame whose payload is not a
`MessageRerror`. -/
inductive SendError where
  | ErrClosed : SendError
  | ctxErr : SendError
  | writeErr : String → SendError
  | rerror : String → SendError
  | invalidErrorResponse : Fcall → SendError
deriving DecidableEq, Repr

/-- Handling of a frame received from `req.response` in `transport.send`:
an `Rerror`-typed frame with a `MessageRerror` payload becomes a typed
protocol error, an `Rerror`-typed frame with any other payload becomes the
formatting error naming the frame, and any other frame returns its message
with no error. -/
def processResponse (resp : Fcall) : Except SendError Message :=
  if resp.typ = .Rerror then
    match resp.message with
    | .MessageRerror ename => .error (.rerror ename)
    | .body _ => .error (.invalidErrorResponse resp)
  else .ok resp.message

/-- Branch taken by the first `select` in `transport.send` (the dispatch of
the request onto `t.requests`). Exactly one branch fires; which one is a
scheduler choice. -/
inductive DispatchBranch where
  | closed : DispatchBranch
  | ctxDone : DispatchBranch
  | submitted : DispatchBranch
deriving DecidableEq, Repr

/-- Branch taken by the second `select` in `transport.send` (the wait for
the outcome), together with the value received on it. -/
inductive WaitBranch where
  | closed : WaitBranch
  | ctxDone : WaitBranch
  | errSlot : String → WaitBranch
  | respSlot : Fcall → WaitBranch
deriving DecidableEq, Repr

/-- Go `select` readiness for the dispatch `select` of `transport.send`:
`<-t.closed` is ready iff the transport is closed, `<-ctx.Done()` iff the
caller's context has ended, and `t.requests <- req` iff the coordinator is
at its own `select` ready to receive (the channel is unbuffered). A
`select` without `default` only ever takes a ready branch. -/
def dispatchReady (closed ctxDone submitReady : Bool) : DispatchBranch → Bool
  | .closed => closed
  | .ctxDone => ctxDone
  | .submitted => submitReady

/-- Body of `transport.send` as a function of which branch each of its two
`select` statements took: the dispatch select returns `ErrClosed` or
`ctx.Err()` without submitting, and the wait select returns `ErrClosed`,
`ctx.Err()`, the delivered error, or processes the delivered frame. -/
def send (d : DispatchBranch) (w : WaitBranch) : Except SendError Message :=
  match d with
  | .closed => .error .ErrClosed
  | .ctxDone => .error .ctxErr
  | .submitted =>
    match w with
    | .closed => .error .ErrClosed
    | .ctxDone => .error .ctxErr
    | .errSlot e => .error (.writeErr e)
    | .respSlot resp => processResponse resp

/-- Signal state visible to `transport.Close`: whether `t.closed` is
already closed and whether the owning context `t.ctx` has ended. -/
structure SignalState where
  closed : Bool
  ctxDone : Bool
deriving DecidableEq, Repr

/-- Result of a `transport.Close` call. -/
inductive CloseResult where
  | ok : CloseResult
  | ErrClosed : CloseResult
  | ctxErr : CloseResult
deriving DecidableEq, Repr

/-- Body of `transport.Close`: a `select` over `<-t.closed`, `<-t.ctx.Done()`
and `default`. When both signals are ready Go picks one of the two ready
branches nondeterministically (`pickClosed` names that choice); when
neither is ready the `default` branch runs `close(t.closed)` and the call
returns nil. -/
def closeStep (s : SignalState) (pickClosed : Bool) : SignalState × CloseResult :=
  if s.closed && s.ctxDone then (s, if pickClosed then .ErrClosed else .ctxErr)
  else if s.closed then (s, .ErrClosed)
  else if s.ctxDone then (s, .ctxErr)
  else ({ s with closed := true }, .ok)

/-- Classification of a `ReadFcall` error by the reader loop: a
`net.Error` carries `Timeout()` and `Temporary()` flags; any non-network
error has neither. -/
inductive ReadError where
  | net : Bool → Bool → ReadError
  | other : String → ReadError
deriving DecidableEq, Repr

/-- Retry test of the reader loop: `switch err.(type) { case net.Error: if
err.Timeout() || err.Temporary() { continue loop } }` — only a network
error that is a timeout or temporary is retried. -/
def isTransient : ReadError → Bool
  | .net timeout temporary => timeout || temporary
  | .other _ => false

/-- Action taken by one iteration of the reader goroutine in
`transport.handle`. -/
inductive ReaderAction where
  | retry : ReaderAction
  | fatalClose : ReaderAction
  | dropAndStop : ReaderAction
  | forwarded : Fcall → ReaderAction
deriving DecidableEq, Repr

/-- One iteration of the reader loop: on a read error, retry if transient,
otherwise call `t.Close()` and return; on a decoded frame, forward it to
the coordinator unless the context has ended or the transport closed, in
which case the loop returns and the frame is dropped. -/
def readerIter (r : Except ReadError Fcall) (ctxDone closed : Bool) : ReaderAction :=
  match r with
  | .error e => if isTransient e then .retry else .fatalClose
  | .ok fcall => if ctxDone || closed then .dropAndStop else .forwarded fcall

/-! Measurement functions on tables, event lists and traces, used to state
the multiplexing properties. -/

/-- Request identities stored in an outstanding table. -/
def idsOf (m : OutstandingTable) : List Nat :=
  m.map (fun p => p.2.id)

/-- Tags (keys) stored in an outstanding table. -/
def keysOf (m : OutstandingTable) : List Nat :=
  m.map Prod.fst

/-- Identities of the requests submitted in an event list, in order. -/
def reqIds : List CoordEvent → List Nat
  | [] => []
  | .request q _ :: evs => q.id :: reqIds evs
  | _ :: evs => reqIds evs

/-- Number of occurrences of a value in a list of identifiers. -/
def occCount (a : Nat) : List Nat → Nat
  | [] => 0
  | x :: l => (if x = a then 1 else 0) + occCount a l

/-- Number of deliveries into the error slot of the request with the given
identity. -/
def errCount (id : Nat) : List Delivery → Nat
  | [] => 0
  | .err i _ :: ds => (if i = id then 1 else 0) + errCount id ds
  | .response _ _ :: ds => errCount id ds

/-- Number of deliveries into the response slot of the request with the
given identity. -/
def respCount (id : Nat) : List Delivery → Nat
  | [] => 0
  | .err _ _ :: ds => respCount id ds
  | .response i _ :: ds => (if i = id then 1 else 0) + respCount id ds

/-- The terminal outcomes a `send` call can produce: a reply message, the
closed error, the caller's context error, a write error, a typed protocol
error, or the malformed-error-reply failure. -/
def TerminalOutcome (r : Except SendError Message) : Prop :=
  (∃ m, r = .ok m) ∨ r = .error .ErrClosed ∨ r = .error .ctxErr ∨
    (∃ e, r = .error (.writeErr e)) ∨ (∃ ename, r = .error (.rerror ename)) ∨
    (∃ f, r = .error (.invalidErrorResponse f))

@[simp]
theorem occCount_nil (a : Nat) : occCount a [] = 0 := rfl

@[simp]
theorem occCount_cons (a x : Nat) (l : List Nat) :
    occCount a (x :: l) = (if x = a then 1 else 0) + occCount a l := rfl

@[simp]
theorem occCount_append (a : Nat) (l₁ l₂ : List Nat) :
    occCount a (l₁ ++ l₂) = occCount a l₁ + occCount a l₂ := by
  induction l₁ with
  | nil => simp
  | cons x l ih => simp [ih]; omega

@[simp]
theorem errCount_append (id : Nat) (d₁ d₂ : List Delivery) :
    errCount id (d₁ ++ d₂) = errCount id d₁ + errCount id d₂ := by
  induction d₁ with
  | nil => simp [errCount]
  | cons d ds ih =>
    cases d with
    | err i e => simp [errCount, ih]; omega
    | response i f => simp [errCount, ih]

@[simp]
theorem respCount_append (id : Nat) (d₁ d₂ : List Delivery) :
    respCount id (d₁ ++ d₂) = respCount id d₁ + respCount id d₂ := by
  induction d₁ with
  | nil => simp [respCount]
  | cons d ds ih =>
    cases d with
    | err i e => simp [respCount, ih]
    | response i f => simp [respCount, ih]; omega

@[simp]
theorem idsOf_nil : idsOf [] = [] := rfl

@[simp]
theorem idsOf_cons (p : Nat × FcallRequest) (m : OutstandingTable) :
    idsOf (p :: m) = p.2.id :: idsOf m := rfl

@[simp]
theorem keysOf_nil : keysOf [] = [] := rfl

@[simp]
theorem keysOf_cons (p : Nat × FcallRequest) (m : OutstandingTable) :
    keysOf (p :: m) = p.1 :: keysOf m := rfl

/-- Erasing a key only removes entries, so every identity occurs at most as
often afterwards. -/
theorem occ_idsOf_mapErase_le (i k : Nat) (m : OutstandingTable) :
    occCount i (idsOf (mapErase k m)) ≤ occCount i (idsOf m) := by
  induction m with
  | nil => simp [mapErase]
  | cons p m ih =>
    obtain ⟨k', v⟩ := p
    by_cases hk : k' = k
    · simp [mapErase, hk]
      exact le_trans ih (Nat.le_add_left _ _)
    · simp [mapErase, hk]
      exact ih

theorem occ_keysOf_mapErase_le (i k : Nat) (m : OutstandingTable) :
    occCount i (keysOf (mapErase k m)) ≤ occCount i (keysOf m) := by
  induction m with
  | nil => simp [mapErase]
  | cons p m ih =>
    obtain ⟨k', v⟩ := p
    by_cases hk : k' = k
    · simp [mapErase, hk]
      exact le_trans ih (Nat.le_add_left _ _)
    · simp [mapErase, hk]
      exact ih

/-- After erasing a key it no longer occurs among the keys. -/
theorem occ_keysOf_mapErase_self (k : Nat) (m : OutstandingTable) :
    occCount k (keysOf (mapErase k m)) = 0 := by
  induction m with
  | nil => simp [mapErase]
  | cons p m ih =>
    obtain ⟨k', v⟩ := p
    by_cases hk : k' = k
    · simp [mapErase, hk, ih]
    · simp [mapErase, hk, ih]

/-- Erasing a key twice is the same as erasing it once. -/
theorem mapErase_mapErase (k : Nat) (m : OutstandingTable) :
    mapErase k (mapErase k m) = mapErase k m := by
  induction m with
  | nil => rfl
  | cons p m ih =>
    obtain ⟨k', v⟩ := p
    by_cases hk : k' = k
    · simp [mapErase, hk, ih]
    · simp [mapErase, hk, ih]

/-- A successful lookup names an identity present in the table. -/
theorem lookup_some_occ_ids (k : Nat) (m : OutstandingTable) (v : FcallRequest)
    (h : mapLookup k m = some v) : 1 ≤ occCount v.id (idsOf m) := by
  induction m with
  | nil => simp [mapLookup] at h
  | cons p m ih =>
    obtain ⟨k', w⟩ := p
    by_cases hk : k' = k
    · simp [mapLookup, hk] at h
      subst h
      simp
    · simp [mapLookup, hk] at h
      exact le_trans (ih h) (Nat.le_add_left _ _)

/-- Erasing the key of a looked-up entry removes the (unique) occurrence of
that entry's identity. -/
theorem occ_idsOf_mapErase_lookup (k : Nat) (m : OutstandingTable) (v : FcallRequest)
    (hl : mapLookup k m = some v) (hu : occCount v.id (idsOf m) ≤ 1) :
    occCount v.id (idsOf (mapErase k m)) = 0 := by
  induction m with
  | nil => simp [mapErase]
  | cons p m ih =>
    obtain ⟨k', w⟩ := p
    by_cases hk : k' = k
    · simp [mapLookup, hk] at hl
      subst hl
      simp at hu
      have hle := occ_idsOf_mapErase_le w.id k m
      simp [mapErase, hk]
      omega
    · simp [mapLookup, hk] at hl
      have h1 := lookup_some_occ_ids k m v hl
      simp at hu
      by_cases hwe : w.id = v.id
      · simp [hwe] at hu
        simp [mapErase, hk, hwe]
        omega
      · simp [hwe] at hu
        simp [mapErase, hk, hwe]
        exact ih hl hu

/-! Unfolding equations for `coordStep` and `coordRun`. -/

theorem coordStep_request_ok (s : CoordState) (q : FcallRequest) :
    coordStep s (.request q none) =
      .next { tags := (s.tags + 1) % tagSpace,
              outstanding := mapInsert ((s.tags + 1) % tagSpace) q s.outstanding } [] := rfl

theorem mapErase_mapInsert_self (k : Nat) (v : FcallRequest) (m : OutstandingTable) :
    mapErase k (mapInsert k v m) = mapErase k m := by
  simp [mapInsert, mapErase, mapErase_mapErase]

theorem coordStep_request_err (s : CoordState) (q : FcallRequest) (e : String) :
    coordStep s (.request q (some e)) =
      .next { tags := (s.tags + 1) % tagSpace,
              outstanding := mapErase ((s.tags + 1) % tagSpace) s.outstanding }
        [.err q.id e] := by
  simp [coordStep, newFcall, mapErase_mapInsert_self]

theorem coordStep_response_none (s : CoordState) (b : Fcall)
    (h : mapLookup b.tag s.outstanding = none) :
    coordStep s (.response b) = .panicked "unknown tag received" := by
  simp [coordStep, h]

theorem coordStep_response_some (s : CoordState) (b : Fcall) (req : FcallRequest)
    (h : mapLookup b.tag s.outstanding = some req) :
    coordStep s (.response b) =
      .next { tags := s.tags, outstanding := mapErase b.tag s.outstanding }
        [.response req.id b] := by
  simp [coordStep, h]

@[simp]
theorem coordRun_nil (s : CoordState) :
    coordRun s [] = { state := s, halted := none, deliveries := [], tagsAssigned := [] } := rfl

theorem coordRun_cons_next (s s' : CoordState) (e : CoordEvent) (evs : List CoordEvent)
    (out : List Delivery) (h : coordStep s e = .next s' out) :
    coordRun s (e :: evs) =
      { state := (coordRun s' evs).state, halted := (coordRun s' evs).halted,
        deliveries := out ++ (coordRun s' evs).deliveries,
        tagsAssigned := assignedTagsOf e s' ++ (coordRun s' evs).tagsAssigned } := by
  rw [coordRun, h]

theorem coordRun_cons_stopped (s : CoordState) (e : CoordEvent) (evs : List CoordEvent)
    (h : coordStep s e = .stopped) :
    coordRun s (e :: evs) =
      { state := s, halted := some .stopped, deliveries := [], tagsAssigned := [] } := by
  rw [coordRun, h]

theorem coordRun_cons_panicked (s : CoordState) (e : CoordEvent) (evs : List CoordEvent)
    (msg : String) (h : coordStep s e = .panicked msg) :
    coordRun s (e :: evs) =
      { state := s, halted := some (.panicked msg), deliveries := [], tagsAssigned := [] } := by
  rw [coordRun, h]

@[simp]
theorem reqIds_request (q : FcallRequest) (w : Option String) (evs : List CoordEvent) :
    reqIds (.request q w :: evs) = q.id :: reqIds evs := rfl

@[simp]
theorem reqIds_response (b : Fcall) (evs : List CoordEvent) :
    reqIds (.response b :: evs) = reqIds evs := rfl

@[simp]
theorem reqIds_ctxDone (evs : List CoordEvent) :
    reqIds (.ctxDone :: evs) = reqIds evs := rfl

@[simp]
theorem reqIds_closed (evs : List CoordEvent) :
    reqIds (.closed :: evs) = reqIds evs := rfl

/-- Centre piece of the uniqueness claims: provided no two submissions (and
no submission and pre-existing table entry) share an identity, a
coordinator run delivers at most one value — error or response — per
request identity, counted against the number of times that identity was
submitted. -/
theorem run_deliveries_bound (evs : List CoordEvent) :
    ∀ (s : CoordState) (id : Nat),
      (∀ j, occCount j (idsOf s.outstanding ++ reqIds evs) ≤ 1) →
      errCount id (coordRun s evs).deliveries + respCount id (coordRun s evs).deliveries ≤
        occCount id (reqIds evs) + occCount id (idsOf s.outstanding) := by
  induction evs with
  | nil => intro s id _; simp [errCount, respCount]
  | cons e evs ih =>
    intro s id H
    cases e with
    | request q w =>
      cases w with
      | none =>
        rw [coordRun_cons_next s _ _ evs _ (coordStep_request_ok s q)]
        have H' : ∀ j,
            occCount j (idsOf (mapInsert ((s.tags + 1) % tagSpace) q s.outstanding)
              ++ reqIds evs) ≤ 1 := by
          intro j
          have h1 := H j
          have h2 := occ_idsOf_mapErase_le j ((s.tags + 1) % tagSpace) s.outstanding
          by_cases hq : q.id = j <;> simp [mapInsert, hq] at h1 ⊢ <;> omega
        have hih := ih { tags := (s.tags + 1) % tagSpace,
                         outstanding := mapInsert ((s.tags + 1) % tagSpace) q s.outstanding }
          id H'
        have h2 := occ_idsOf_mapErase_le id ((s.tags + 1) % tagSpace) s.outstanding
        by_cases hq : q.id = id <;>
          simp [mapInsert, hq, errCount, respCount] at hih ⊢ <;> omega
      | some er =>
        rw [coordRun_cons_next s _ _ evs _ (coordStep_request_err s q er)]
        have H' : ∀ j,
            occCount j (idsOf (mapErase ((s.tags + 1) % tagSpace) s.outstanding)
              ++ reqIds evs) ≤ 1 := by
          intro j
          have h1 := H j
          have h2 := occ_idsOf_mapErase_le j ((s.tags + 1) % tagSpace) s.outstanding
          by_cases hq : q.id = j <;> simp [hq] at h1 ⊢ <;> omega
        have hih := ih { tags := (s.tags + 1) % tagSpace,
                         outstanding := mapErase ((s.tags + 1) % tagSpace) s.outstanding }
          id H'
        have h2 := occ_idsOf_mapErase_le id ((s.tags + 1) % tagSpace) s.outstanding
        by_cases hq : q.id = id <;>
          simp [hq, errCount, respCount] at hih ⊢ <;> omega
    | response b =>
      cases hl : mapLookup b.tag s.outstanding with
      | none =>
        rw [coordRun_cons_panicked s _ evs _ (coordStep_response_none s b hl)]
        simp [errCount, respCount]
      | some req =>
        rw [coordRun_cons_next s _ _ evs _ (coordStep_response_some s b req hl)]
        have hocc := lookup_some_occ_ids b.tag s.outstanding req hl
        have hu : occCount req.id (idsOf s.outstanding) ≤ 1 := by
          have := H req.id
          simp at this
          omega
        have H' : ∀ j,
            occCount j (idsOf (mapErase b.tag s.outstanding) ++ reqIds evs) ≤ 1 := by
          intro j
          have h1 := H j
          have h2 := occ_idsOf_mapErase_le j b.tag s.outstanding
          simp at h1 ⊢
          omega
        have hih := ih { tags := s.tags, outstanding := mapErase b.tag s.outstanding } id H'
        by_cases hq : req.id = id
        · subst hq
          have h0 := occ_idsOf_mapErase_lookup b.tag s.outstanding req hl hu
          simp [errCount, respCount, h0] at hih ⊢
          omega
        · have h2 := occ_idsOf_mapErase_le id b.tag s.outstanding
          simp [errCount, respCount, hq] at hih ⊢
          omega
    | ctxDone =>
      rw [coordRun_cons_stopped s .ctxDone evs rfl]
      simp [errCount, respCount]
    | closed =>
      rw [coordRun_cons_stopped s .closed evs rfl]
      simp [errCount, respCount]

/-- A request identity that is absent from the outstanding table and whose
every submission in the run fails its frame write never receives a
response delivery: the coordinator only ever sends a frame to an entry it
finds in the table. -/
theorem run_respCount_zero (evs : List CoordEvent) :
    ∀ (s : CoordState) (id : Nat),
      occCount id (idsOf s.outstanding) = 0 →
      (∀ q w, CoordEvent.request q w ∈ evs → q.id = id → w ≠ none) →
      respCount id (coordRun s evs).deliveries = 0 := by
  induction evs with
  | nil => intro s id _ _; simp [respCount]
  | cons e evs ih =>
    intro s id h0 hw
    have hwTail : ∀ q w, CoordEvent.request q w ∈ evs → q.id = id → w ≠ none :=
      fun q w hm => hw q w (List.mem_cons_of_mem _ hm)
    cases e with
    | request q w =>
      cases w with
      | none =>
        have hq : q.id ≠ id := by
          intro he
          exact hw q none (List.mem_cons_self _ _) he rfl
        rw [coordRun_cons_next s _ _ evs _ (coordStep_request_ok s q)]
        have h0' : occCount id (idsOf (mapInsert ((s.tags + 1) % tagSpace) q s.outstanding)) = 0 := by
          have h2 := occ_idsOf_mapErase_le id ((s.tags + 1) % tagSpace) s.outstanding
          simp [mapInsert, hq]
          omega
        have := ih { tags := (s.tags + 1) % tagSpace,
                     outstanding := mapInsert ((s.tags + 1) % tagSpace) q s.outstanding }
          id h0' hwTail
        simp [respCount, this]
      | some er =>
        rw [coordRun_cons_next s _ _ evs _ (coordStep_request_err s q er)]
        have h0' : occCount id (idsOf (mapErase ((s.tags + 1) % tagSpace) s.outstanding)) = 0 := by
          have h2 := occ_idsOf_mapErase_le id ((s.tags + 1) % tagSpace) s.outstanding
          omega
        have := ih { tags := (s.tags + 1) % tagSpace,
                     outstanding := mapErase ((s.tags + 1) % tagSpace) s.outstanding }
          id h0' hwTail
        simp [respCount, this]
    | response b =>
      cases hl : mapLookup b.tag s.outstanding with
      | none =>
        rw [coordRun_cons_panicked s _ evs _ (coordStep_response_none s b hl)]
        simp [respCount]
      | some req =>
        rw [coordRun_cons_next s _ _ evs _ (coordStep_response_some s b req hl)]
        have hocc := lookup_some_occ_ids b.tag s.outstanding req hl
        have hq : req.id ≠ id := by
          intro he
          rw [he] at hocc
          omega
        have h0' : occCount id (idsOf (mapErase b.tag s.outstanding)) = 0 := by
          have h2 := occ_idsOf_mapErase_le id b.tag s.outstanding
          omega
        have := ih { tags := s.tags, outstanding := mapErase b.tag s.outstanding } id h0' hwTail
        simp [respCount, hq, this]
    | ctxDone =>
      rw [coordRun_cons_stopped s .ctxDone evs rfl]
      simp [respCount]
    | closed =>
      rw [coordRun_cons_stopped s .closed evs rfl]
      simp [respCount]

/-- Occurrence count characterisation of list membership. -/
theorem occCount_eq_zero_iff (a : Nat) (l : List Nat) :
    occCount a l = 0 ↔ a ∉ l := by
  induction l with
  | nil => simp
  | cons x l ih =>
    by_cases hx : x = a
    · subst hx
      simp
    · simp [hx, ih, Ne.symm hx]

/-- A list of identifiers has no duplicate exactly when every identifier
occurs at most once. -/
theorem nodup_iff_occCount_le_one (l : List Nat) :
    l.Nodup ↔ ∀ a, occCount a l ≤ 1 := by
  induction l with
  | nil => simp
  | cons x l ih =>
    constructor
    · intro h a
      rw [List.nodup_cons] at h
      have hocc := (ih.mp h.2) a
      by_cases hx : x = a
      · subst hx
        have := (occCount_eq_zero_iff x l).mpr h.1
        simp [this]
      · simp [hx]
        exact hocc
    · intro h
      rw [List.nodup_cons]
      constructor
      · rw [← occCount_eq_zero_iff]
        have := h x
        simp at this
        omega
      · apply ih.mpr
        intro a
        have := h a
        by_cases hx : x = a <;> simp [hx] at this <;> omega

/-- Keys of the outstanding table stay duplicate-free across any
coordinator run: map insertion evicts an entry with the same key and map
deletion only removes entries. -/
theorem run_keys_occ_le_one (evs : List CoordEvent) :
    ∀ (s : CoordState),
      (∀ k, occCount k (keysOf s.outstanding) ≤ 1) →
      ∀ k, occCount k (keysOf (coordRun s evs).state.outstanding) ≤ 1 := by
  induction evs with
  | nil => intro s h k; simpa using h k
  | cons e evs ih =>
    intro s h
    cases e with
    | request q w =>
      cases w with
      | none =>
        rw [coordRun_cons_next s _ _ evs _ (coordStep_request_ok s q)]
        apply ih
        intro k
        by_cases hk : (s.tags + 1) % tagSpace = k
        · subst hk
          have := occ_keysOf_mapErase_self ((s.tags + 1) % tagSpace) s.outstanding
          simp [mapInsert, this]
        · have := occ_keysOf_mapErase_le k ((s.tags + 1) % tagSpace) s.outstanding
          have hb := h k
          simp [mapInsert, hk]
          omega
      | some er =>
        rw [coordRun_cons_next s _ _ evs _ (coordStep_request_err s q er)]
        apply ih
        intro k
        dsimp only
        have := occ_keysOf_mapErase_le k ((s.tags + 1) % tagSpace) s.outstanding
        have hb := h k
        omega
    | response b =>
      cases hl : mapLookup b.tag s.outstanding with
      | none =>
        rw [coordRun_cons_panicked s _ evs _ (coordStep_response_none s b hl)]
        simpa using h
      | some req =>
        rw [coordRun_cons_next s _ _ evs _ (coordStep_response_some s b req hl)]
        apply ih
        intro k
        dsimp only
        have := occ_keysOf_mapErase_le k b.tag s.outstanding
        have hb := h k
        omega
    | ctxDone =>
      rw [coordRun_cons_stopped s .ctxDone evs rfl]
      simpa using h
    | closed =>
      rw [coordRun_cons_stopped s .closed evs rfl]
      simpa using h

/-- On an all-requests event list the recorded tags are the successive
counter values `(c + 1) % 2^16, (c + 2) % 2^16, …` in dispatch order. -/
theorem run_tagsAssigned (evs : List CoordEvent) :
    ∀ (s : CoordState),
      (∀ e ∈ evs, ∃ q w, e = CoordEvent.request q w) →
      (coordRun s evs).tagsAssigned =
        (List.range evs.length).map (fun i => (s.tags + i + 1) % tagSpace) := by
  induction evs with
  | nil => intro s _; simp
  | cons e evs ih =>
    intro s hreq
    obtain ⟨q, w, rfl⟩ := hreq _ (List.mem_cons_self _ _)
    have htail : ∀ e ∈ evs, ∃ q w, e = CoordEvent.request q w :=
      fun e hm => hreq e (List.mem_cons_of_mem _ hm)
    have hmod : ∀ i : Nat,
        ((s.tags + 1) % tagSpace + i + 1) % tagSpace = (s.tags + (i + 1) + 1) % tagSpace := by
      intro i
      rw [Nat.add_assoc ((s.tags + 1) % tagSpace) i 1, Nat.mod_add_mod]
      congr 1
      omega
    cases w with
    | none =>
      rw [coordRun_cons_next s _ _ evs _ (coordStep_request_ok s q)]
      rw [ih _ htail]
      simp [assignedTagsOf, List.range_succ_eq_map, List.map_map, Function.comp]
      intro i _
      exact hmod i
    | some er =>
      rw [coordRun_cons_next s _ _ evs _ (coordStep_request_err s q er)]
      rw [ih _ htail]
      simp [assignedTagsOf, List.range_succ_eq_map, List.map_map, Function.comp]
      intro i _
      exact hmod i

/-- Every value of the send result type is one of the enumerated terminal
outcomes. -/
theorem terminalOutcome_total (r : Except SendError Message) : TerminalOutcome r := by
  cases r with
  | ok m => exact Or.inl ⟨m, rfl⟩
  | error e =>
    cases e with
    | ErrClosed => exact Or.inr (Or.inl rfl)
    | ctxErr => exact Or.inr (Or.inr (Or.inl rfl))
    | writeErr e => exact Or.inr (Or.inr (Or.inr (Or.inl ⟨e, rfl⟩)))
    | rerror ename => exact Or.inr (Or.inr (Or.inr (Or.inr (Or.inl ⟨ename, rfl⟩))))
    | invalidErrorResponse f => exact Or.inr (Or.inr (Or.inr (Or.inr (Or.inr ⟨f, rfl⟩))))

/-- C1: a reply frame whose tag has no entry in the outstanding table does
NOT produce a distinguishable protocol-violation failure with a graceful
close — the coordinator executes `panic("unknown tag received")`,
terminating the process uncontrolled. This theorem evaluates the code at
the claim's scenario and exhibits the panic. -/
theorem unknown_tag_panics (s : CoordState) (b : Fcall)
    (h : mapLookup b.tag s.outstanding = none) :
    coordStep s (.response b) = .panicked "unknown tag received" :=
  coordStep_response_none s b h

theorem unknown_tag_panics_witness :
    mapLookup (1 : Nat) initCoordState.outstanding = none ∧
    coordStep initCoordState (.response { tag := 1, typ := .plain 0, message := .body 0 }) =
      .panicked "unknown tag received" :=
  ⟨rfl, unknown_tag_panics initCoordState { tag := 1, typ := .plain 0, message := .body 0 } rfl⟩

/-- C2: every resolution of `send`'s two selects yields exactly one value,
and that value is one of the enumerated terminal outcomes (reply, closed
error, context error, write error, typed protocol error, malformed-error
failure); and whenever all concurrently submitted requests are distinct,
the coordinator delivers at most one outcome — error or response — into
any one request's slots, so no submission can observe two outcomes. -/
theorem send_exactly_one_outcome :
    (∀ (d : DispatchBranch) (w : WaitBranch), TerminalOutcome (send d w)) ∧
    (∀ (evs : List CoordEvent) (id : Nat),
      (∀ j, occCount j (reqIds evs) ≤ 1) →
      errCount id (coordRun initCoordState evs).deliveries +
        respCount id (coordRun initCoordState evs).deliveries ≤ 1) := by
  constructor
  · intro d w
    exact terminalOutcome_total (send d w)
  · intro evs id h
    have hb := run_deliveries_bound evs initCoordState id
      (by intro j; simpa [initCoordState] using h j)
    have h2 := h id
    have h0 : occCount id (idsOf initCoordState.outstanding) = 0 := rfl
    omega

theorem send_exactly_one_outcome_witness :
    TerminalOutcome (send .submitted (.respSlot { tag := 1, typ := .plain 0, message := .body 4 })) ∧
    (∀ j, occCount j (reqIds [CoordEvent.request { id := 3, message := .body 0 } none]) ≤ 1) ∧
    errCount 3 (coordRun initCoordState
        [CoordEvent.request { id := 3, message := .body 0 } none]).deliveries +
      respCount 3 (coordRun initCoordState
        [CoordEvent.request { id := 3, message := .body 0 } none]).deliveries ≤ 1 := by
  refine ⟨send_exactly_one_outcome.1 _ _, ?_, ?_⟩
  · intro j
    by_cases h3 : (3 : Nat) = j <;> simp [reqIds, h3]
  · exact send_exactly_one_outcome.2 _ 3
      (by intro j; by_cases h3 : (3 : Nat) = j <;> simp [reqIds, h3])

/-- C3: after any sequence of coordinator events — including sequences long
enough for the 16-bit tag counter to wrap — the tags present in the
outstanding table are pairwise distinct (map insertion evicts the previous
holder of a colliding key, deletion only removes entries). -/
theorem outstanding_tags_pairwise_distinct (evs : List CoordEvent) :
    (keysOf (coordRun initCoordState evs).state.outstanding).Nodup := by
  rw [nodup_iff_occCount_le_one]
  exact run_keys_occ_le_one evs initCoordState (by intro k; simp [initCoordState])

/-- C4: a request whose frame write fails has its just-inserted table entry
removed in the same iteration that delivers the write error to its error
slot, so the net table change is the removal of that tag; and a request
identity all of whose submissions fail their writes never receives a
response delivery anywhere in the run. -/
theorem write_failure_removes_entry_and_no_reply :
    (∀ (s : CoordState) (r : FcallRequest) (e : String),
      coordStep s (.request r (some e)) =
        .next { tags := (s.tags + 1) % tagSpace,
                outstanding := mapErase ((s.tags + 1) % tagSpace) s.outstanding }
          [.err r.id e]) ∧
    (∀ (evs : List CoordEvent) (id : Nat),
      (∀ q w, CoordEvent.request q w ∈ evs → q.id = id → w ≠ none) →
      respCount id (coordRun initCoordState evs).deliveries = 0) := by
  refine ⟨coordStep_request_err, ?_⟩
  intro evs id hw
  exact run_respCount_zero evs initCoordState id (by simp [initCoordState]) hw

theorem write_failure_removes_entry_and_no_reply_witness :
    (coordStep initCoordState (.request { id := 7, message := .body 0 } (some "io")) =
      .next { tags := (initCoordState.tags + 1) % tagSpace,
              outstanding := mapErase ((initCoordState.tags + 1) % tagSpace)
                initCoordState.outstanding }
        [.err 7 "io"]) ∧
    respCount 7 (coordRun initCoordState
      [CoordEvent.request { id := 7, message := .body 0 } (some "io")]).deliveries = 0 := by
  refine ⟨write_failure_removes_entry_and_no_reply.1 initCoordState _ "io", ?_⟩
  refine write_failure_removes_entry_and_no_reply.2 _ 7 ?_
  intro q w hm _
  simp at hm
  rcases hm with ⟨-, rfl⟩
  simp

/-- C5: an incoming reply frame is delivered to exactly the pending call
whose tag equals the frame's tag: the coordinator looks the tag up, removes
that entry, and sends the frame into that request's response slot; in the
two-call scenario the replies reach their own callers in either arrival
order, never swapped. -/
theorem reply_matched_by_tag :
    (∀ (s : CoordState) (b : Fcall) (req : FcallRequest),
      mapLookup b.tag s.outstanding = some req →
      coordStep s (.response b) =
        .next { tags := s.tags, outstanding := mapErase b.tag s.outstanding }
          [.response req.id b]) ∧
    (∀ (ra rb : FcallRequest) (fa fb : Fcall),
      fa.tag = 1 → fb.tag = 2 →
      (coordRun initCoordState
          [.request ra none, .request rb none, .response fb, .response fa]).deliveries =
        [.response rb.id fb, .response ra.id fa] ∧
      (coordRun initCoordState
          [.request ra none, .request rb none, .response fa, .response fb]).deliveries =
        [.response ra.id fa, .response rb.id fb]) := by
  refine ⟨coordStep_response_some, ?_⟩
  intro ra rb fa fb ha hb
  obtain ⟨ta, tya, ma⟩ := fa
  obtain ⟨tb, tyb, mb⟩ := fb
  simp only [Fcall.mk.injEq] at ha hb ⊢
  subst ha
  subst hb
  constructor <;> rfl

theorem reply_matched_by_tag_witness :
    (mapLookup (5 : Nat) [((5 : Nat), ({ id := 9, message := .body 0 } : FcallRequest))] =
      some { id := 9, message := .body 0 }) ∧
    (coordStep { tags := 6, outstanding := [(5, { id := 9, message := .body 0 })] }
        (.response { tag := 5, typ := .plain 0, message := .body 2 }) =
      .next { tags := 6, outstanding := mapErase 5 [(5, { id := 9, message := .body 0 })] }
        [.response 9 { tag := 5, typ := .plain 0, message := .body 2 }]) ∧
    (coordRun initCoordState
        [.request { id := 11, message := .body 0 } none,
         .request { id := 12, message := .body 1 } none,
         .response { tag := 2, typ := .plain 0, message := .body 22 },
         .response { tag := 1, typ := .plain 0, message := .body 21 }]).deliveries =
      [.response 12 { tag := 2, typ := .plain 0, message := .body 22 },
       .response 11 { tag := 1, typ := .plain 0, message := .body 21 }] := by
  refine ⟨rfl, reply_matched_by_tag.1
    { tags := 6, outstanding := [(5, { id := 9, message := .body 0 })] }
    { tag := 5, typ := .plain 0, message := .body 2 }
    { id := 9, message := .body 0 } rfl, ?_⟩
  exact (reply_matched_by_tag.2 { id := 11, message := .body 0 } { id := 12, message := .body 1 }
    { tag := 1, typ := .plain 0, message := .body 21 }
    { tag := 2, typ := .plain 0, message := .body 22 } rfl rfl).1

/-- C6: a reply frame of error type with a `MessageRerror` payload is
returned as that typed protocol error; a reply frame of error type whose
payload is not a `MessageRerror` fails with the formatting error naming the
frame; any other reply returns its message payload with no error. -/
theorem reply_processing :
    (∀ (resp : Fcall) (ename : String),
      resp.typ = .Rerror → resp.message = .MessageRerror ename →
      processResponse resp = .error (.rerror ename)) ∧
    (∀ resp : Fcall,
      resp.typ = .Rerror → (∀ ename, resp.message ≠ .MessageRerror ename) →
      processResponse resp = .error (.invalidErrorResponse resp)) ∧
    (∀ resp : Fcall, resp.typ ≠ .Rerror → processResponse resp = .ok resp.message) := by
  refine ⟨?_, ?_, ?_⟩
  · intro resp ename ht hm
    simp [processResponse, ht, hm]
  · intro resp ht hm
    cases hmsg : resp.message with
    | MessageRerror ename => exact absurd hmsg (hm ename)
    | body n => simp [processResponse, ht, hmsg]
  · intro resp ht
    simp [processResponse, ht]

theorem reply_processing_witness :
    processResponse { tag := 1, typ := .Rerror, message := .MessageRerror "denied" } =
      .error (.rerror "denied") ∧
    processResponse { tag := 1, typ := .Rerror, message := .body 3 } =
      .error (.invalidErrorResponse { tag := 1, typ := .Rerror, message := .body 3 }) ∧
    processResponse { tag := 1, typ := .plain 0, message := .body 3 } = .ok (.body 3) := by
  refine ⟨reply_processing.1 _ "denied" rfl rfl, ?_, ?_⟩
  · exact reply_processing.2.1 _ rfl (by intro ename h; simp at h)
  · exact reply_processing.2.2 _ (by simp)

/-- C7: on an open transport with a live owning context the first `Close`
closes the signal and returns success; any call with the transport already
closed leaves the state unchanged and fails (closed error or context
error), and any call after the owning context ended fails; the coordinator
loop stops on the closed signal, after which a submission whose only ready
dispatch branch is the closed signal fails with `ErrClosed`. -/
theorem close_first_succeeds_then_fails :
    (∀ p : Bool, closeStep { closed := false, ctxDone := false } p =
      ({ closed := true, ctxDone := false }, .ok)) ∧
    (∀ (s : SignalState) (p : Bool), s.closed = true →
      (closeStep s p).1 = s ∧
        ((closeStep s p).2 = .ErrClosed ∨ (closeStep s p).2 = .ctxErr)) ∧
    (∀ (s : SignalState) (p : Bool), s.ctxDone = true → (closeStep s p).2 ≠ .ok) ∧
    (∀ s : CoordState, coordStep s .closed = .stopped) ∧
    (∀ (d : DispatchBranch) (w : WaitBranch),
      dispatchReady true false false d = true → send d w = .error .ErrClosed) := by
  refine ⟨?_, ?_, ?_, fun s => rfl, ?_⟩
  · intro p
    simp [closeStep]
  · intro s p hc
    cases p <;> cases hcd : s.ctxDone <;> simp [closeStep, hc, hcd]
  · intro s p hcd
    cases p <;> cases hc : s.closed <;> simp [closeStep, hc, hcd]
  · intro d w hd
    cases d with
    | closed => rfl
    | ctxDone => simp [dispatchReady] at hd
    | submitted => simp [dispatchReady] at hd

theorem close_first_succeeds_then_fails_witness :
    closeStep { closed := false, ctxDone := false } true =
      ({ closed := true, ctxDone := false }, .ok) ∧
    ((closeStep { closed := true, ctxDone := false } false).1 =
        { closed := true, ctxDone := false } ∧
      ((closeStep { closed := true, ctxDone := false } false).2 = .ErrClosed ∨
        (closeStep { closed := true, ctxDone := false } false).2 = .ctxErr)) ∧
    (closeStep { closed := false, ctxDone := true } true).2 ≠ .ok ∧
    coordStep initCoordState .closed = .stopped ∧
    send .closed .closed = .error .ErrClosed := by
  refine ⟨close_first_succeeds_then_fails.1 true,
    close_first_succeeds_then_fails.2.1 _ false rfl,
    close_first_succeeds_then_fails.2.2.1 _ true rfl,
    close_first_succeeds_then_fails.2.2.2.1 initCoordState,
    close_first_succeeds_then_fails.2.2.2.2 .closed .closed rfl⟩

/-- C8: a read error that is a network error flagged timeout or temporary
is retried immediately (no close, no frame forwarded); any other read
error makes the reader trigger `Close` — which closes the transport — and
terminate; afterwards a submission whose only ready dispatch branch is the
closed signal, and a pending call whose wait select takes the closed
branch, fail with `ErrClosed`. -/
theorem reader_fault_policy :
    (∀ (e : ReadError) (cd cl : Bool), isTransient e = true →
      readerIter (.error e) cd cl = .retry) ∧
    (∀ timeout temporary : Bool,
      isTransient (.net timeout temporary) = (timeout || temporary)) ∧
    (∀ msg : String, isTransient (.other msg) = false) ∧
    (∀ (e : ReadError) (cd cl : Bool), isTransient e = false →
      readerIter (.error e) cd cl = .fatalClose) ∧
    (∀ p : Bool, (closeStep { closed := false, ctxDone := false } p).1.closed = true) ∧
    (∀ (d : DispatchBranch) (w : WaitBranch),
      dispatchReady true false false d = true → send d w = .error .ErrClosed) ∧
    send .submitted .closed = .error .ErrClosed := by
  refine ⟨?_, fun _ _ => rfl, fun _ => rfl, ?_, ?_, ?_, rfl⟩
  · intro e cd cl ht
    simp [readerIter, ht]
  · intro e cd cl ht
    simp [readerIter, ht]
  · intro p
    simp [closeStep]
  · intro d w hd
    cases d with
    | closed => rfl
    | ctxDone => simp [dispatchReady] at hd
    | submitted => simp [dispatchReady] at hd

theorem reader_fault_policy_witness :
    readerIter (.error (.net true false)) false false = .retry ∧
    readerIter (.error (.other "eof")) false false = .fatalClose ∧
    (closeStep { closed := false, ctxDone := false } true).1.closed = true ∧
    send .closed .closed = .error .ErrClosed := by
  refine ⟨reader_fault_policy.1 _ false false rfl,
    reader_fault_policy.2.2.2.1 _ false false rfl,
    reader_fault_policy.2.2.2.2.1 true,
    reader_fault_policy.2.2.2.2.2.1 .closed .closed rfl⟩

/-- C9: over any sequence of dispatched requests the coordinator assigns
tags by pre-incrementing a counter that starts at zero and wraps at 2^16:
the n-th observed request receives tag n % 2^16 (n counted from 1), so tag
assignment order equals submission-observation order. -/
theorem tag_allocation_counter (evs : List CoordEvent)
    (h : ∀ e ∈ evs, ∃ q w, e = CoordEvent.request q w) :
    (coordRun initCoordState evs).tagsAssigned =
      (List.range evs.length).map (fun n => (n + 1) % tagSpace) := by
  rw [run_tagsAssigned evs initCoordState h]
  simp [initCoordState]

theorem tag_allocation_counter_witness :
    (∀ e ∈ [CoordEvent.request { id := 1, message := .body 0 } none,
            CoordEvent.request { id := 2, message := .body 0 } (some "io"),
            CoordEvent.request { id := 3, message := .body 0 } none],
      ∃ q w, e = CoordEvent.request q w) ∧
    (coordRun initCoordState
        [CoordEvent.request { id := 1, message := .body 0 } none,
         CoordEvent.request { id := 2, message := .body 0 } (some "io"),
         CoordEvent.request { id := 3, message := .body 0 } none]).tagsAssigned =
      (List.range 3).map (fun n => (n + 1) % tagSpace) := by
  constructor
  · intro e he
    simp at he
    rcases he with rfl | rfl | rfl
    · exact ⟨_, _, rfl⟩
    · exact ⟨_, _, rfl⟩
    · exact ⟨_, _, rfl⟩
  · exact tag_allocation_counter _ (by
      intro e he
      simp at he
      rcases he with rfl | rfl | rfl
      · exact ⟨_, _, rfl⟩
      · exact ⟨_, _, rfl⟩
      · exact ⟨_, _, rfl⟩)

/-- C10: when all submitted requests are distinct, the coordinator puts at
most one value into any one request's pair of capacity-one slots: at most
one error, at most one response, and never one of each — so a delivery
never exceeds a slot's buffer capacity and can never block the
coordinator. -/
theorem at_most_one_delivery_per_request (evs : List CoordEvent) (id : Nat)
    (h : ∀ j, occCount j (reqIds evs) ≤ 1) :
    errCount id (coordRun initCoordState evs).deliveries ≤ errSlotCap ∧
    respCount id (coordRun initCoordState evs).deliveries ≤ responseSlotCap ∧
    errCount id (coordRun initCoordState evs).deliveries +
      respCount id (coordRun initCoordState evs).deliveries ≤ 1 := by
  have hb := run_deliveries_bound evs initCoordState id
    (by intro j; simpa [initCoordState] using h j)
  have h2 := h id
  have h0 : occCount id (idsOf initCoordState.outstanding) = 0 := rfl
  refine ⟨?_, ?_, by omega⟩
  · simp [errSlotCap]
    omega
  · simp [responseSlotCap]
    omega

theorem at_most_one_delivery_per_request_witness :
    (∀ j, occCount j (reqIds
      [CoordEvent.request { id := 4, message := .body 0 } none,
       CoordEvent.response { tag := 1, typ := .plain 0, message := .body 9 }]) ≤ 1) ∧
    errCount 4 (coordRun initCoordState
        [CoordEvent.request { id := 4, message := .body 0 } none,
         CoordEvent.response { tag := 1, typ := .plain 0, message := .body 9 }]).deliveries +
      respCount 4 (coordRun initCoordState
        [CoordEvent.request { id := 4, message := .body 0 } none,
         CoordEvent.response { tag := 1, typ := .plain 0, message := .body 9 }]).deliveries ≤
      1 := by
  constructor
  · intro j
    by_cases h4 : (4 : Nat) = j <;> simp [reqIds, h4]
  · exact (at_most_one_delivery_per_request _ 4
      (by intro j; by_cases h4 : (4 : Nat) = j <;> simp [reqIds, h4])).2.2

end P9p
